import Mathlib

/-!
Verification of the document cache of the JobApplicationAI repository
(`src/utils/cache_utils.py`, class `DocumentCache`).

Modelling choices, all taken from the source:

* a source file is its raw byte content plus a modification time;
  `os.path.getmtime` returns a float, modelled as a rational number;
* the file system seen by the cache is a partial map from paths to files,
  `none` meaning the file is missing or unreadable (any attempt to open,
  stat or hash it raises);
* the cache directory is an association list from file names inside the
  directory to stored files; a stored file is either a record that
  `json.load` parses as a JSON object, or corrupted content on which
  parsing (or the subsequent attribute access) raises;
* `hashlib.md5(content).hexdigest()` is an arbitrary function `md5hex` of
  the byte content: the code uses the digest only as an opaque key;
* the byte size of a record serialised by `json.dump` is an arbitrary
  function `jsonSize` of the record: the code reads it back only through
  `os.path.getsize`;
* `datetime.now().isoformat()` is passed in as an explicit `now` string.

Every method is translated statement by statement.  Methods thread the
cache-directory state explicitly; fallible methods return `Except Unit`
(a raised exception carries no data the callers inspect).
-/

/-- A source file: raw byte content and last-modification time. -/
structure SrcFile where
  content : List Nat
  mtime : ℚ
deriving DecidableEq

/-- The file system seen by the cache: `none` means missing/unreadable. -/
abbrev FS : Type := String → Option SrcFile

/-- A persisted cache record as `json.load` returns it: a JSON object with
the five fields the cache writes, each possibly absent, plus a flag for
whether the object carries any further keys, so that Python's truthiness
test `if not cached_data` (true exactly on the empty dict) is expressible. -/
structure CacheData where
  file_path : Option String
  parsed_text : Option String
  timestamp : Option ℚ
  cached_at : Option String
  file_size : Option Nat
  otherKeys : Bool
deriving DecidableEq

/-- Python's `not cached_data` for a loaded dict: true iff the dict is empty. -/
def CacheData.isEmptyDict (d : CacheData) : Bool :=
  d.file_path.isNone && d.parsed_text.isNone && d.timestamp.isNone &&
    d.cached_at.isNone && d.file_size.isNone && !d.otherKeys

/-- A file stored in the cache directory: either a record that parses as a
JSON object, or corrupted content on which `json.load` (or the `.get`
calls that follow) raises.  `size` is what `os.path.getsize` returns for
the stored file itself. -/
inductive CacheFile where
  | valid (data : CacheData) (size : Nat)
  | corrupted (size : Nat)
deriving DecidableEq

/-- The cache directory: an association list from file name (within the
directory) to stored file, in `os.listdir` order. -/
abbrev CacheDir : Type := List (String × CacheFile)

/-- Reading the file stored at `name`, if any. -/
def lookupFile : CacheDir → String → Option CacheFile
  | [], _ => none
  | (n, f) :: rest, name => if n = name then some f else lookupFile rest name

/-- Writing a file at `name`: overwrite in place if present, else create. -/
def setFile : CacheDir → String → CacheFile → CacheDir
  | [], name, f => [(name, f)]
  | (n, g) :: rest, name, f =>
      if n = name then (name, f) :: rest else (n, g) :: setFile rest name f

/-- Whether `small` is a prefix of `big`, character by character. -/
def charsPrefixOf : List Char → List Char → Bool
  | [], _ => true
  | _ :: _, [] => false
  | a :: as, b :: bs => a = b && charsPrefixOf as bs

/-- Python's `str.endswith`: the suffix test used on cache file names. -/
def endswith (s suffix : String) : Bool :=
  charsPrefixOf suffix.data.reverse s.data.reverse

namespace DocumentCache

/-- `DocumentCache._get_file_hash`: open the file, read its bytes and hash
them; re-raises if the file cannot be read. -/
def _get_file_hash (md5hex : List Nat → String) (fs : FS) (file_path : String) :
    Except Unit String :=
  match fs file_path with
  | some f => .ok (md5hex f.content)
  | none => .error ()

/-- `DocumentCache._get_file_timestamp`: `os.path.getmtime`; re-raises if
the file cannot be accessed. -/
def _get_file_timestamp (fs : FS) (file_path : String) : Except Unit ℚ :=
  match fs file_path with
  | some f => .ok f.mtime
  | none => .error ()

/-- `os.path.getsize` on a source file: byte count; raises if missing. -/
def getsize (fs : FS) (file_path : String) : Except Unit Nat :=
  match fs file_path with
  | some f => .ok f.content.length
  | none => .error ()

/-- The record file name built at line 52 of the source: the file type, an
underscore, the content hash, and the `.json` extension. -/
def cacheKey (file_type file_hash : String) : String :=
  file_type ++ "_" ++ file_hash ++ ".json"

/-- `DocumentCache._get_cache_file_path`: the record name derived from the
hash and the file type, joined inside the cache directory (modelled by the
name within the directory). -/
def _get_cache_file_path (md5hex : List Nat → String) (fs : FS)
    (file_path file_type : String) : Except Unit String :=
  match _get_file_hash md5hex fs file_path with
  | .ok file_hash => .ok (cacheKey file_type file_hash)
  | .error e => .error e

/-- `DocumentCache._load_cache`: if the record file exists, read it and
`json.load` it; a missing file returns `None`, and any exception while
loading (a corrupted record) is caught and also returns `None`. -/
def _load_cache (dir : CacheDir) (cache_file_path : String) : Option CacheData :=
  match lookupFile dir cache_file_path with
  | some (.valid d _) => some d
  | some (.corrupted _) => none
  | none => none

/-- `DocumentCache._save_cache`: `json.dump` the record to the file,
overwriting any previous content. -/
def _save_cache (jsonSize : CacheData → Nat) (dir : CacheDir)
    (cache_file_path : String) (data : CacheData) : CacheDir :=
  setFile dir cache_file_path (.valid data (jsonSize data))

/-- `DocumentCache.get_cached_resume`, the cache-directory state threaded
explicitly.  The enclosing `try`/`except Exception` catches every raised
error and returns `(None, False)`; the body performs reads only. -/
def get_cached_resume (md5hex : List Nat → String) (fs : FS) (dir : CacheDir)
    (resume_path : String) : CacheDir × (Option String × Bool) :=
  match _get_cache_file_path md5hex fs resume_path "resume" with
  | .error _ => (dir, (none, false))
  | .ok cache_file_path =>
    match _load_cache dir cache_file_path with
    | none => (dir, (none, false))
    | some cached_data =>
      if cached_data.isEmptyDict then (dir, (none, false))
      else
        match _get_file_timestamp fs resume_path with
        | .error _ => (dir, (none, false))
        | .ok current_timestamp =>
          if current_timestamp > cached_data.timestamp.getD 0 then
            (dir, (none, false))
          else
            (dir, (cached_data.parsed_text, true))

/-- `DocumentCache.get_cached_job_description`, the cache-directory state
threaded explicitly; identical to the resume variant except for the file
type `"job"`. -/
def get_cached_job_description (md5hex : List Nat → String) (fs : FS)
    (dir : CacheDir) (job_path : String) : CacheDir × (Option String × Bool) :=
  match _get_cache_file_path md5hex fs job_path "job" with
  | .error _ => (dir, (none, false))
  | .ok cache_file_path =>
    match _load_cache dir cache_file_path with
    | none => (dir, (none, false))
    | some cached_data =>
      if cached_data.isEmptyDict then (dir, (none, false))
      else
        match _get_file_timestamp fs job_path with
        | .error _ => (dir, (none, false))
        | .ok current_timestamp =>
          if current_timestamp > cached_data.timestamp.getD 0 then
            (dir, (none, false))
          else
            (dir, (cached_data.parsed_text, true))

/-- The record dict built by `cache_resume` and `cache_job_description`:
original path, parsed text, source mtime, caching time, source size. -/
def mkRecord (source_path parsed_text now : String) (timestamp : ℚ)
    (file_size : Nat) : CacheData :=
  { file_path := some source_path
    parsed_text := some parsed_text
    timestamp := some timestamp
    cached_at := some now
    file_size := some file_size
    otherKeys := false }

/-- `DocumentCache.cache_resume`: build the record and save it; any raised
error is logged and re-raised. -/
def cache_resume (md5hex : List Nat → String) (jsonSize : CacheData → Nat)
    (fs : FS) (dir : CacheDir) (resume_path parsed_text now : String) :
    Except Unit CacheDir :=
  match _get_cache_file_path md5hex fs resume_path "resume" with
  | .error e => .error e
  | .ok cache_file_path =>
    match _get_file_timestamp fs resume_path with
    | .error e => .error e
    | .ok timestamp =>
      match getsize fs resume_path with
      | .error e => .error e
      | .ok file_size =>
        .ok (_save_cache jsonSize dir cache_file_path
          (mkRecord resume_path parsed_text now timestamp file_size))

/-- `DocumentCache.cache_job_description`: identical to `cache_resume`
except for the file type `"job"`. -/
def cache_job_description (md5hex : List Nat → String)
    (jsonSize : CacheData → Nat) (fs : FS) (dir : CacheDir)
    (job_path parsed_text now : String) : Except Unit CacheDir :=
  match _get_cache_file_path md5hex fs job_path "job" with
  | .error e => .error e
  | .ok cache_file_path =>
    match _get_file_timestamp fs job_path with
    | .error e => .error e
    | .ok timestamp =>
      match getsize fs job_path with
      | .error e => .error e
      | .ok file_size =>
        .ok (_save_cache jsonSize dir cache_file_path
          (mkRecord job_path parsed_text now timestamp file_size))

/-- `DocumentCache.clear_cache`: delete every file of the cache directory
whose name ends with `.json`. -/
def clear_cache (dir : CacheDir) : CacheDir :=
  List.filter (fun e => !endswith e.1 ".json") dir

/-- One entry of the listing built by `get_cache_info`. -/
structure CacheInfoEntry where
  file : String
  original_file : String
  cached_at : String
  size : Nat
deriving DecidableEq

/-- The dict returned by `get_cache_info`. -/
structure CacheInfo where
  cache_directory : String
  cached_files : List CacheInfoEntry
  total_size : Nat
deriving DecidableEq

/-- `DocumentCache.get_cache_info`, the cache-directory state threaded
explicitly: walk every `.json` file of the directory; a record that fails
to parse is skipped (`continue`); a parsed record contributes a listing
entry and its file size; the body performs reads only. -/
def get_cache_info (cache_dir : String) (dir : CacheDir) :
    CacheDir × CacheInfo :=
  let entries := List.filterMap (fun e =>
    if endswith e.1 ".json" then
      match e.2 with
      | CacheFile.valid d sz =>
          some { file := e.1
                 original_file := d.file_path.getD "Unknown"
                 cached_at := d.cached_at.getD "Unknown"
                 size := sz }
      | CacheFile.corrupted _ => none
    else none) dir
  (dir, { cache_directory := cache_dir
          cached_files := entries
          total_size := List.sum (List.map CacheInfoEntry.size entries) })

end DocumentCache

/-- The two document kinds of the spec, partitioning the cache namespace. -/
inductive DocKind | resume | job
deriving DecidableEq

/-- The file-type string the class passes to `_get_cache_file_path` for a
kind. -/
def DocKind.fileType : DocKind → String
  | .resume => "resume"
  | .job => "job"

namespace DocumentCache

/-- The spec's `lookup(kind, path)`: dispatch to the method for the kind. -/
def lookup (md5hex : List Nat → String) (k : DocKind) (fs : FS)
    (dir : CacheDir) (p : String) : CacheDir × (Option String × Bool) :=
  match k with
  | .resume => get_cached_resume md5hex fs dir p
  | .job => get_cached_job_description md5hex fs dir p

/-- The spec's `store(kind, path, text)`: dispatch to the method for the
kind. -/
def store (md5hex : List Nat → String) (jsonSize : CacheData → Nat)
    (k : DocKind) (fs : FS) (dir : CacheDir) (p t now : String) :
    Except Unit CacheDir :=
  match k with
  | .resume => cache_resume md5hex jsonSize fs dir p t now
  | .job => cache_job_description md5hex jsonSize fs dir p t now

end DocumentCache

/-! Helper lemmas about the directory model. -/

theorem lookupFile_setFile_self (dir : CacheDir) (name : String)
    (f : CacheFile) : lookupFile (setFile dir name f) name = some f := by
  induction dir with
  | nil => simp [setFile, lookupFile]
  | cons e rest ih =>
    obtain ⟨n, g⟩ := e
    by_cases h : n = name
    · subst h
      simp [setFile, lookupFile]
    · simp [setFile, lookupFile, h, ih]

theorem lookupFile_setFile_ne (dir : CacheDir) (name m : String)
    (f : CacheFile) (h : m ≠ name) :
    lookupFile (setFile dir name f) m = lookupFile dir m := by
  induction dir with
  | nil => simp [setFile, lookupFile, Ne.symm h]
  | cons e rest ih =>
    obtain ⟨n, g⟩ := e
    by_cases hn : n = name
    · subst hn
      simp [setFile, lookupFile, Ne.symm h]
    · simp only [setFile, if_neg hn, lookupFile]
      by_cases hm : n = m
      · simp [hm]
      · simp [hm, ih]

theorem mem_keys_setFile (dir : CacheDir) (name x : String) (f : CacheFile)
    (hx : x ∈ List.map Prod.fst (setFile dir name f)) :
    x ∈ List.map Prod.fst dir ∨ x = name := by
  induction dir with
  | nil =>
    simp [setFile] at hx
    exact Or.inr hx
  | cons e rest ih =>
    obtain ⟨n, g⟩ := e
    by_cases h : n = name
    · subst h
      simp [setFile] at hx
      exact Or.inl (by simpa using hx)
    · simp only [setFile, if_neg h, List.map_cons, List.mem_cons] at hx
      rcases hx with hx | hx
      · exact Or.inl (by simp [hx])
      · rcases ih hx with h1 | h1
        · exact Or.inl (by simp [h1])
        · exact Or.inr h1

theorem nodup_keys_setFile (dir : CacheDir) (name : String) (f : CacheFile)
    (h : (List.map Prod.fst dir).Nodup) :
    (List.map Prod.fst (setFile dir name f)).Nodup := by
  induction dir with
  | nil => simp [setFile]
  | cons e rest ih =>
    obtain ⟨n, g⟩ := e
    simp only [List.map_cons, List.nodup_cons] at h
    by_cases hn : n = name
    · subst hn
      simpa [setFile] using h
    · simp only [setFile, if_neg hn, List.map_cons, List.nodup_cons]
      refine ⟨fun hc => ?_, ih h.2⟩
      rcases mem_keys_setFile rest name n f hc with h1 | h1
      · exact h.1 h1
      · exact hn h1

theorem filter_keyEq_of_not_mem (l : CacheDir) (x : String)
    (h : x ∉ List.map Prod.fst l) :
    List.filter (fun e => e.1 == x) l = [] := by
  induction l with
  | nil => rfl
  | cons e rest ih =>
    obtain ⟨n, g⟩ := e
    simp only [List.map_cons, List.mem_cons, not_or] at h
    have hne : (n == x) = false := by
      simpa using Ne.symm h.1
    simp [List.filter, hne, ih h.2]

theorem filter_keyEq_setFile (dir : CacheDir) (name : String) (f : CacheFile)
    (h : (List.map Prod.fst dir).Nodup) :
    List.filter (fun e => e.1 == name) (setFile dir name f) = [(name, f)] := by
  induction dir with
  | nil => simp [setFile, List.filter]
  | cons e rest ih =>
    obtain ⟨n, g⟩ := e
    simp only [List.map_cons, List.nodup_cons] at h
    by_cases hn : n = name
    · subst hn
      simp only [setFile, if_pos rfl, List.filter]
      simp [filter_keyEq_of_not_mem rest n h.1]
    · have hne : (n == name) = false := by simp [hn]
      simp [setFile, if_neg hn, List.filter, hne, ih h.2]

theorem charsPrefixOf_append_self (xs ys : List Char) :
    charsPrefixOf xs (xs ++ ys) = true := by
  induction xs with
  | nil => rfl
  | cons a as ih => simp [charsPrefixOf, ih]

theorem endswith_append (a b : String) : endswith (a ++ b) b = true := by
  unfold endswith
  rw [String.data_append, List.reverse_append]
  exact charsPrefixOf_append_self _ _

theorem endswith_cacheKey (file_type file_hash : String) :
    endswith (DocumentCache.cacheKey file_type file_hash) ".json" = true := by
  unfold DocumentCache.cacheKey
  rw [show file_type ++ "_" ++ file_hash ++ ".json"
      = (file_type ++ "_" ++ file_hash) ++ ".json" by
    simp [String.append_assoc]]
  exact endswith_append _ _

/-! Characterisations of the two lookup methods and the two store methods,
derived by unfolding the translations. -/

namespace DocumentCache

theorem get_cached_resume_hit (md5hex : List Nat → String) (fs : FS)
    (dir : CacheDir) (p : String) (f : SrcFile) (d : CacheData) (sz : Nat)
    (hf : fs p = some f)
    (hrec : lookupFile dir (cacheKey "resume" (md5hex f.content))
      = some (CacheFile.valid d sz))
    (hne : d.isEmptyDict = false)
    (hts : f.mtime ≤ d.timestamp.getD 0) :
    get_cached_resume md5hex fs dir p = (dir, (d.parsed_text, true)) := by
  simp only [get_cached_resume, _get_cache_file_path, _get_file_hash,
    _load_cache, _get_file_timestamp, hf, hrec, hne]
  rw [if_neg (not_lt.mpr hts)]
  simp

theorem get_cached_job_hit (md5hex : List Nat → String) (fs : FS)
    (dir : CacheDir) (p : String) (f : SrcFile) (d : CacheData) (sz : Nat)
    (hf : fs p = some f)
    (hrec : lookupFile dir (cacheKey "job" (md5hex f.content))
      = some (CacheFile.valid d sz))
    (hne : d.isEmptyDict = false)
    (hts : f.mtime ≤ d.timestamp.getD 0) :
    get_cached_job_description md5hex fs dir p = (dir, (d.parsed_text, true)) := by
  simp only [get_cached_job_description, _get_cache_file_path, _get_file_hash,
    _load_cache, _get_file_timestamp, hf, hrec, hne]
  rw [if_neg (not_lt.mpr hts)]
  simp

/-- A hit of `lookup`, kind-generic: the record at the derived key parses,
is a non-empty object, and its timestamp has not been passed by the source
file's modification time; the returned text is the record's text field. -/
theorem lookup_hit (md5hex : List Nat → String) (k : DocKind) (fs : FS)
    (dir : CacheDir) (p : String) (f : SrcFile) (d : CacheData) (sz : Nat)
    (hf : fs p = some f)
    (hrec : lookupFile dir (cacheKey k.fileType (md5hex f.content))
      = some (CacheFile.valid d sz))
    (hne : d.isEmptyDict = false)
    (hts : f.mtime ≤ d.timestamp.getD 0) :
    lookup md5hex k fs dir p = (dir, (d.parsed_text, true)) := by
  cases k
  · exact get_cached_resume_hit md5hex fs dir p f d sz hf hrec hne hts
  · exact get_cached_job_hit md5hex fs dir p f d sz hf hrec hne hts

/-- A miss of `lookup` on an unreadable source file: the raised error is
caught and turned into `(None, False)`. -/
theorem lookup_miss_unreadable (md5hex : List Nat → String) (k : DocKind)
    (fs : FS) (dir : CacheDir) (p : String) (hf : fs p = none) :
    lookup md5hex k fs dir p = (dir, (none, false)) := by
  cases k <;>
    simp [lookup, get_cached_resume, get_cached_job_description,
      _get_cache_file_path, _get_file_hash, hf]

/-- A miss of `lookup` when `_load_cache` yields nothing at the derived
key: no record file, or a corrupted one. -/
theorem lookup_miss_absent (md5hex : List Nat → String) (k : DocKind)
    (fs : FS) (dir : CacheDir) (p : String) (f : SrcFile)
    (hf : fs p = some f)
    (hrec : _load_cache dir (cacheKey k.fileType (md5hex f.content)) = none) :
    lookup md5hex k fs dir p = (dir, (none, false)) := by
  cases k <;>
    simp only [DocKind.fileType] at hrec <;>
    simp [lookup, get_cached_resume, get_cached_job_description,
      _get_cache_file_path, _get_file_hash, hf, hrec]

/-- A miss of `lookup` on a record whose loaded dict is empty (Python's
`if not cached_data`). -/
theorem lookup_miss_empty (md5hex : List Nat → String) (k : DocKind)
    (fs : FS) (dir : CacheDir) (p : String) (f : SrcFile) (d : CacheData)
    (sz : Nat) (hf : fs p = some f)
    (hrec : lookupFile dir (cacheKey k.fileType (md5hex f.content))
      = some (CacheFile.valid d sz))
    (he : d.isEmptyDict = true) :
    lookup md5hex k fs dir p = (dir, (none, false)) := by
  cases k <;>
    simp only [DocKind.fileType] at hrec <;>
    simp [lookup, get_cached_resume, get_cached_job_description,
      _get_cache_file_path, _get_file_hash, _load_cache, hf, hrec, he]

/-- A miss of `lookup` on a stale record: the source file's current
modification time is strictly past the recorded timestamp. -/
theorem lookup_miss_stale (md5hex : List Nat → String) (k : DocKind)
    (fs : FS) (dir : CacheDir) (p : String) (f : SrcFile) (d : CacheData)
    (sz : Nat) (hf : fs p = some f)
    (hrec : lookupFile dir (cacheKey k.fileType (md5hex f.content))
      = some (CacheFile.valid d sz))
    (hts : d.timestamp.getD 0 < f.mtime) :
    lookup md5hex k fs dir p = (dir, (none, false)) := by
  cases k <;>
    simp only [DocKind.fileType] at hrec <;>
    simp [lookup, get_cached_resume, get_cached_job_description,
      _get_cache_file_path, _get_file_hash, _load_cache,
      _get_file_timestamp, hf, hrec, hts]

/-- A successful `store`, kind-generic: the record built from the source
file is written at the derived key, overwriting. -/
theorem store_ok (md5hex : List Nat → String) (jsonSize : CacheData → Nat)
    (k : DocKind) (fs : FS) (dir : CacheDir) (p t now : String) (f : SrcFile)
    (hf : fs p = some f) :
    store md5hex jsonSize k fs dir p t now
      = Except.ok (setFile dir (cacheKey k.fileType (md5hex f.content))
          (CacheFile.valid (mkRecord p t now f.mtime f.content.length)
            (jsonSize (mkRecord p t now f.mtime f.content.length)))) := by
  cases k <;>
    simp [store, cache_resume, cache_job_description, _get_cache_file_path,
      _get_file_hash, _get_file_timestamp, getsize, _save_cache,
      DocKind.fileType, hf]

/-- `store` on an unreadable source file re-raises the error. -/
theorem store_unreadable (md5hex : List Nat → String)
    (jsonSize : CacheData → Nat) (k : DocKind) (fs : FS) (dir : CacheDir)
    (p t now : String) (hf : fs p = none) :
    store md5hex jsonSize k fs dir p t now = Except.error () := by
  cases k <;>
    simp [store, cache_resume, cache_job_description, _get_cache_file_path,
      _get_file_hash, hf]

/-- The record a store builds is never the empty dict. -/
theorem mkRecord_not_empty (sp t now : String) (ts : ℚ) (sz : Nat) :
    (mkRecord sp t now ts sz).isEmptyDict = false := by
  simp [mkRecord, CacheData.isEmptyDict]

end DocumentCache

theorem store_example_run :
    DocumentCache.store (fun c => toString c.length) (fun _ => 7)
      DocKind.resume
      (fun p => if p = "r.pdf" then some ⟨[1, 2, 3], 5⟩ else none)
      [] "r.pdf" "hello" "2026-01-01"
    = Except.ok [("resume_3.json",
        CacheFile.valid
          (DocumentCache.mkRecord "r.pdf" "hello" "2026-01-01" 5 3) 7)] := rfl

theorem resume_key_ne_job_key (a b : String) :
    DocumentCache.cacheKey "resume" a ≠ DocumentCache.cacheKey "job" b := by
  intro hc
  unfold DocumentCache.cacheKey at hc
  have hd := congrArg String.data hc
  simp only [String.data_append] at hd
  simp only [List.cons_append] at hd
  injection hd with h1 _
  exact absurd h1 (by decide)

theorem cacheKey_ne_of_kind_ne (k k' : DocKind) (h : k ≠ k') (a b : String) :
    DocumentCache.cacheKey k.fileType a ≠ DocumentCache.cacheKey k'.fileType b := by
  cases k <;> cases k'
  · exact absurd rfl h
  · exact resume_key_ne_job_key a b
  · exact fun hc => resume_key_ne_job_key b a hc.symm
  · exact absurd rfl h

theorem lookupFile_clear_cache (dir : CacheDir) (name : String)
    (h : endswith name ".json" = true) :
    lookupFile (DocumentCache.clear_cache dir) name = none := by
  unfold DocumentCache.clear_cache
  induction dir with
  | nil => rfl
  | cons e rest ih =>
    obtain ⟨n, g⟩ := e
    by_cases hn : endswith n ".json" = true
    · simp only [List.filter_cons]
      simp [hn, ih]
    · have hne : ¬ n = name := fun hc => hn (by rw [hc]; exact h)
      simp only [List.filter_cons]
      simp [hn, lookupFile, hne, ih]

theorem filterMap_filter_not {β : Type} (p : (String × CacheFile) → Bool)
    (f : (String × CacheFile) → Option β)
    (hf : ∀ e, p e = false → f e = none) (l : CacheDir) :
    List.filterMap f (List.filter (fun e => !p e) l) = [] := by
  induction l with
  | nil => rfl
  | cons a l ih =>
    by_cases hp : p a = true
    · simp only [List.filter_cons]
      simp [hp, ih]
    · have hpf : p a = false := by simpa using hp
      simp only [List.filter_cons]
      simp [hpf, List.filterMap_cons, hf a hpf, ih]

theorem cacheKey_inj (ft a b : String)
    (h : DocumentCache.cacheKey ft a = DocumentCache.cacheKey ft b) : a = b := by
  unfold DocumentCache.cacheKey at h
  have hd := congrArg String.data h
  simp only [String.data_append] at hd
  exact String.ext (List.append_cancel_left (List.append_cancel_right hd))

/-- A lookup against the empty cache directory always misses. -/
theorem lookup_empty_dir (md5hex : List Nat → String) (k : DocKind)
    (fs : FS) (p : String) :
    DocumentCache.lookup md5hex k fs [] p = ([], (none, false)) := by
  cases hq : fs p with
  | none => exact DocumentCache.lookup_miss_unreadable md5hex k fs [] p hq
  | some g => exact DocumentCache.lookup_miss_absent md5hex k fs [] p g hq rfl

/-- The result of a lookup depends on the cache directory only through the
record stored at the key derived from the source file. -/
theorem lookup_snd_congr (md5hex : List Nat → String) (k : DocKind)
    (fs : FS) (dir1 dir2 : CacheDir) (p : String)
    (h : ∀ f : SrcFile, fs p = some f →
      lookupFile dir1 (DocumentCache.cacheKey k.fileType (md5hex f.content))
        = lookupFile dir2 (DocumentCache.cacheKey k.fileType (md5hex f.content))) :
    (DocumentCache.lookup md5hex k fs dir1 p).2
      = (DocumentCache.lookup md5hex k fs dir2 p).2 := by
  cases k
  case resume =>
    cases hq : fs p with
    | none =>
      simp [DocumentCache.lookup, DocumentCache.get_cached_resume,
        DocumentCache._get_cache_file_path, DocumentCache._get_file_hash, hq]
    | some g =>
      have h2 := h g hq
      simp only [DocKind.fileType] at h2
      simp only [DocumentCache.lookup, DocumentCache.get_cached_resume,
        DocumentCache._get_cache_file_path, DocumentCache._get_file_hash,
        DocumentCache._load_cache, DocumentCache._get_file_timestamp, hq, h2]
      cases hl : lookupFile dir2
          (DocumentCache.cacheKey "resume" (md5hex g.content)) with
      | none => rfl
      | some cf =>
        cases cf with
        | corrupted s => rfl
        | valid d s =>
          by_cases hemp : d.isEmptyDict = true
          · simp [hemp]
          · by_cases hts : d.timestamp.getD 0 < g.mtime <;> simp [hemp, hts]
  case job =>
    cases hq : fs p with
    | none =>
      simp [DocumentCache.lookup, DocumentCache.get_cached_job_description,
        DocumentCache._get_cache_file_path, DocumentCache._get_file_hash, hq]
    | some g =>
      have h2 := h g hq
      simp only [DocKind.fileType] at h2
      simp only [DocumentCache.lookup, DocumentCache.get_cached_job_description,
        DocumentCache._get_cache_file_path, DocumentCache._get_file_hash,
        DocumentCache._load_cache, DocumentCache._get_file_timestamp, hq, h2]
      cases hl : lookupFile dir2
          (DocumentCache.cacheKey "job" (md5hex g.content)) with
      | none => rfl
      | some cf =>
        cases cf with
        | corrupted s => rfl
        | valid d s =>
          by_cases hemp : d.isEmptyDict = true
          · simp [hemp]
          · by_cases hts : d.timestamp.getD 0 < g.mtime <;> simp [hemp, hts]

/-! The claims. -/

/-- Claim C1: write-then-read.  For every readable file, every kind and
every text, after a successful `store(kind, p, t)` a `lookup(kind, p)`
returns `(t, hit=true)`, provided the file's modification time has not
advanced past the value recorded at store time and its byte content is
unchanged. -/
theorem C1_write_then_read (md5hex : List Nat → String)
    (jsonSize : CacheData → Nat) (k : DocKind) (fs fs' : FS)
    (dir dir' : CacheDir) (p t now : String) (c : List Nat) (ts ts' : ℚ)
    (hstore0 : fs p = some ⟨c, ts⟩)
    (hstore : DocumentCache.store md5hex jsonSize k fs dir p t now
      = Except.ok dir')
    (hread : fs' p = some ⟨c, ts'⟩)
    (hts : ts' ≤ ts) :
    DocumentCache.lookup md5hex k fs' dir' p = (dir', (some t, true)) := by
  rw [DocumentCache.store_ok md5hex jsonSize k fs dir p t now ⟨c, ts⟩ hstore0]
    at hstore
  injection hstore with hdir
  subst hdir
  have h1 := DocumentCache.lookup_hit md5hex k fs'
    (setFile dir (DocumentCache.cacheKey k.fileType (md5hex c))
      (CacheFile.valid (DocumentCache.mkRecord p t now ts c.length)
        (jsonSize (DocumentCache.mkRecord p t now ts c.length))))
    p ⟨c, ts'⟩ (DocumentCache.mkRecord p t now ts c.length)
    (jsonSize (DocumentCache.mkRecord p t now ts c.length))
    hread (lookupFile_setFile_self _ _ _)
    (DocumentCache.mkRecord_not_empty _ _ _ _ _)
    (by simpa [DocumentCache.mkRecord] using hts)
  simpa [DocumentCache.mkRecord] using h1

/-- Witness for C1 at a concrete file, text and hash function. -/
theorem C1_write_then_read_witness :
    (fun q => if q = "r.pdf" then some (⟨[1, 2, 3], 5⟩ : SrcFile) else none)
        "r.pdf" = some ⟨[1, 2, 3], 5⟩ ∧
    (4 : ℚ) ≤ 5 ∧
    DocumentCache.lookup (fun c => toString c.length) DocKind.resume
      (fun q => if q = "r.pdf" then some ⟨[1, 2, 3], 4⟩ else none)
      [("resume_3.json",
        CacheFile.valid (DocumentCache.mkRecord "r.pdf" "hello" "T" 5 3) 7)]
      "r.pdf"
      = ([("resume_3.json",
          CacheFile.valid (DocumentCache.mkRecord "r.pdf" "hello" "T" 5 3) 7)],
         (some "hello", true)) :=
  ⟨rfl, by decide,
    C1_write_then_read (fun c => toString c.length) (fun _ => 7) DocKind.resume
      (fun q => if q = "r.pdf" then some ⟨[1, 2, 3], 5⟩ else none)
      (fun q => if q = "r.pdf" then some ⟨[1, 2, 3], 4⟩ else none)
      [] _ "r.pdf" "hello" "T" [1, 2, 3] 5 4 rfl rfl rfl (by decide)⟩

/-- Claim C3 counterexample: `lookup` on an unreadable file does not raise
an error to the caller; it evaluates to the ordinary miss value
`(None, False)` — the I/O error from hashing is swallowed, refuting the
claim that it is propagated rather than swallowed into a miss result. -/
theorem C3_counterexample :
    DocumentCache.lookup (fun c => toString c.length) DocKind.resume
      (fun _ => none) [] "missing.pdf" = ([], (none, false)) := rfl

/-- Claim C3 (amended): for every kind and every path whose file cannot be
read, `lookup(kind, p)` catches the I/O error raised during hashing and
returns `(None, hit=false)` — a miss indistinguishable from a cache miss,
with no error surfaced to the caller. -/
theorem C3_lookup_swallows_io_error (md5hex : List Nat → String)
    (k : DocKind) (fs : FS) (dir : CacheDir) (p : String)
    (h : fs p = none) :
    DocumentCache.lookup md5hex k fs dir p = (dir, (none, false)) :=
  DocumentCache.lookup_miss_unreadable md5hex k fs dir p h

/-- Witness for the amended C3 on a concrete unreadable path. -/
theorem C3_lookup_swallows_io_error_witness :
    (fun _ => (none : Option SrcFile)) "gone.txt" = none ∧
    DocumentCache.lookup (fun c => toString c.length) DocKind.job
      (fun _ => none) [("job_0.json", CacheFile.corrupted 3)] "gone.txt"
      = ([("job_0.json", CacheFile.corrupted 3)], (none, false)) :=
  ⟨rfl, C3_lookup_swallows_io_error (fun c => toString c.length) DocKind.job
    (fun _ => none) [("job_0.json", CacheFile.corrupted 3)] "gone.txt" rfl⟩

/-- Claim C8: lookup is read-only on the cache state.  For every kind,
file system, cache directory and path, the directory that comes out of
`lookup` is exactly the one that went in: a stale record is left in
place, and no record is created, modified or deleted. -/
theorem C8_lookup_readonly (md5hex : List Nat → String) (k : DocKind)
    (fs : FS) (dir : CacheDir) (p : String) :
    (DocumentCache.lookup md5hex k fs dir p).1 = dir := by
  cases k <;>
    · simp only [DocumentCache.lookup, DocumentCache.get_cached_resume,
        DocumentCache.get_cached_job_description]
      repeat' split
      all_goals rfl

/-- Claim C9: a record that parses as a JSON object but lacks the
timestamp field is read with recorded time 0, so lookup misses whenever
the source file's current modification time is strictly positive. -/
theorem C9_missing_timestamp_field (md5hex : List Nat → String)
    (k : DocKind) (fs : FS) (dir : CacheDir) (p : String) (f : SrcFile)
    (d : CacheData) (sz : Nat)
    (hf : fs p = some f)
    (hrec : lookupFile dir (DocumentCache.cacheKey k.fileType
      (md5hex f.content)) = some (CacheFile.valid d sz))
    (hts : d.timestamp = none)
    (hpos : 0 < f.mtime) :
    DocumentCache.lookup md5hex k fs dir p = (dir, (none, false)) := by
  by_cases he : d.isEmptyDict = true
  · exact DocumentCache.lookup_miss_empty md5hex k fs dir p f d sz hf hrec he
  · exact DocumentCache.lookup_miss_stale md5hex k fs dir p f d sz hf hrec
      (by simpa [hts] using hpos)

/-- Witness for C9: a non-empty record without a timestamp field, a file
with modification time 1. -/
theorem C9_missing_timestamp_field_witness :
    (({ file_path := some "old", parsed_text := some "x", timestamp := none,
        cached_at := none, file_size := none,
        otherKeys := false } : CacheData)).timestamp = none ∧
    (0 : ℚ) < 1 ∧
    DocumentCache.lookup (fun c => toString c.length) DocKind.resume
      (fun q => if q = "r.pdf" then some ⟨[9], 1⟩ else none)
      [("resume_1.json",
        CacheFile.valid
          { file_path := some "old", parsed_text := some "x",
            timestamp := none, cached_at := none, file_size := none,
            otherKeys := false } 11)]
      "r.pdf"
      = ([("resume_1.json",
          CacheFile.valid
            { file_path := some "old", parsed_text := some "x",
              timestamp := none, cached_at := none, file_size := none,
              otherKeys := false } 11)], (none, false)) :=
  ⟨rfl, by decide,
    C9_missing_timestamp_field (fun c => toString c.length) DocKind.resume
      (fun q => if q = "r.pdf" then some ⟨[9], 1⟩ else none)
      [("resume_1.json",
        CacheFile.valid
          { file_path := some "old", parsed_text := some "x",
            timestamp := none, cached_at := none, file_size := none,
            otherKeys := false } 11)]
      "r.pdf" ⟨[9], 1⟩
      { file_path := some "old", parsed_text := some "x", timestamp := none,
        cached_at := none, file_size := none, otherKeys := false }
      11 rfl rfl rfl (by decide)⟩

/-- Claim C10: a hit does not guarantee a non-null text.  When the record
at the derived key parses as a non-empty object whose recorded timestamp
is at least the file's current modification time, lookup returns exactly
the record's text field together with `hit=true`; the text is null
whenever that field is absent. -/
theorem C10_hit_text_is_record_field (md5hex : List Nat → String)
    (k : DocKind) (fs : FS) (dir : CacheDir) (p : String) (f : SrcFile)
    (d : CacheData) (sz : Nat)
    (hf : fs p = some f)
    (hrec : lookupFile dir (DocumentCache.cacheKey k.fileType
      (md5hex f.content)) = some (CacheFile.valid d sz))
    (hne : d.isEmptyDict = false)
    (hts : f.mtime ≤ d.timestamp.getD 0) :
    DocumentCache.lookup md5hex k fs dir p = (dir, (d.parsed_text, true)) :=
  DocumentCache.lookup_hit md5hex k fs dir p f d sz hf hrec hne hts

/-- Witness for C10: a fresh-enough record that lacks the text field is
served as `(null, hit=true)`. -/
theorem C10_hit_text_is_record_field_witness :
    (({ file_path := some "old", parsed_text := none, timestamp := some 5,
        cached_at := none, file_size := none,
        otherKeys := false } : CacheData)).parsed_text = none ∧
    DocumentCache.lookup (fun c => toString c.length) DocKind.job
      (fun q => if q = "j.txt" then some ⟨[7, 8], 4⟩ else none)
      [("job_2.json",
        CacheFile.valid
          { file_path := some "old", parsed_text := none, timestamp := some 5,
            cached_at := none, file_size := none, otherKeys := false } 13)]
      "j.txt"
      = ([("job_2.json",
          CacheFile.valid
            { file_path := some "old", parsed_text := none,
              timestamp := some 5, cached_at := none, file_size := none,
              otherKeys := false } 13)], (none, true)) :=
  ⟨rfl,
    C10_hit_text_is_record_field (fun c => toString c.length) DocKind.job
      (fun q => if q = "j.txt" then some ⟨[7, 8], 4⟩ else none)
      [("job_2.json",
        CacheFile.valid
          { file_path := some "old", parsed_text := none, timestamp := some 5,
            cached_at := none, file_size := none, otherKeys := false } 13)]
      "j.txt" ⟨[7, 8], 4⟩
      { file_path := some "old", parsed_text := none, timestamp := some 5,
        cached_at := none, file_size := none, otherKeys := false }
      13 rfl rfl rfl (by decide)⟩

/-- Claim C2: staleness.  Starting from an empty cache, after
`store(kind, p, t)`, a lookup on the modified file misses when the byte
content changed (so the hash changed) or the modification time advanced
strictly past the recorded timestamp; and when the content hash is
unchanged and the current modification time is at most the recorded one,
the lookup is a hit. -/
theorem C2_staleness (md5hex : List Nat → String) (jsonSize : CacheData → Nat)
    (k : DocKind) (fs fs' : FS) (dir' : CacheDir) (p t now : String)
    (c c' : List Nat) (ts ts' : ℚ)
    (hstore0 : fs p = some ⟨c, ts⟩)
    (hstore : DocumentCache.store md5hex jsonSize k fs [] p t now
      = Except.ok dir')
    (hread : fs' p = some ⟨c', ts'⟩) :
    ((md5hex c' ≠ md5hex c ∨ ts < ts') →
      (DocumentCache.lookup md5hex k fs' dir' p).2 = (none, false)) ∧
    ((md5hex c' = md5hex c ∧ ts' ≤ ts) →
      (DocumentCache.lookup md5hex k fs' dir' p).2 = (some t, true)) := by
  rw [DocumentCache.store_ok md5hex jsonSize k fs [] p t now ⟨c, ts⟩ hstore0]
    at hstore
  injection hstore with hdir
  subst hdir
  constructor
  · intro h
    by_cases hh : md5hex c' = md5hex c
    · have hstale : ts < ts' := by
        rcases h with h | h
        · exact absurd hh h
        · exact h
      rw [DocumentCache.lookup_miss_stale md5hex k fs' _ p ⟨c', ts'⟩
        (DocumentCache.mkRecord p t now ts c.length)
        (jsonSize (DocumentCache.mkRecord p t now ts c.length)) hread
        (by simp only [hh]; exact lookupFile_setFile_self _ _ _)
        (by simpa [DocumentCache.mkRecord] using hstale)]
    · have hkey : ¬ (DocumentCache.cacheKey k.fileType (md5hex c)
          = DocumentCache.cacheKey k.fileType (md5hex c')) :=
        fun hq => hh ((cacheKey_inj _ _ _ hq).symm)
      rw [DocumentCache.lookup_miss_absent md5hex k fs' _ p ⟨c', ts'⟩ hread
        (by simp [DocumentCache._load_cache, setFile, lookupFile, hkey])]
  · rintro ⟨hh, hle⟩
    have h1 := DocumentCache.lookup_hit md5hex k fs'
      (setFile [] (DocumentCache.cacheKey k.fileType (md5hex c))
        (CacheFile.valid (DocumentCache.mkRecord p t now ts c.length)
          (jsonSize (DocumentCache.mkRecord p t now ts c.length))))
      p ⟨c', ts'⟩ (DocumentCache.mkRecord p t now ts c.length)
      (jsonSize (DocumentCache.mkRecord p t now ts c.length)) hread
      (by simp only [hh]; exact lookupFile_setFile_self _ _ _)
      (DocumentCache.mkRecord_not_empty _ _ _ _ _)
      (by simpa [DocumentCache.mkRecord] using hle)
    rw [h1]
    simp [DocumentCache.mkRecord]

/-- Witness for C2: content change (hash change) after a store makes the
next lookup a miss. -/
theorem C2_staleness_witness :
    ((fun q => if q = "f.pdf" then some (⟨[1], 5⟩ : SrcFile) else none)
        "f.pdf" = some ⟨[1], 5⟩) ∧
    (toString ([1, 2] : List Nat).length ≠ toString ([1] : List Nat).length) ∧
    (DocumentCache.lookup (fun c => toString c.length) DocKind.resume
      (fun q => if q = "f.pdf" then some ⟨[1, 2], 6⟩ else none)
      [("resume_1.json",
        CacheFile.valid (DocumentCache.mkRecord "f.pdf" "txt" "T" 5 1) 3)]
      "f.pdf").2 = (none, false) :=
  ⟨rfl, by decide,
    (C2_staleness (fun c => toString c.length) (fun _ => 3) DocKind.resume
      (fun q => if q = "f.pdf" then some ⟨[1], 5⟩ else none)
      (fun q => if q = "f.pdf" then some ⟨[1, 2], 6⟩ else none)
      [("resume_1.json",
        CacheFile.valid (DocumentCache.mkRecord "f.pdf" "txt" "T" 5 1) 3)]
      "f.pdf" "txt" "T" [1] [1, 2] 5 6 rfl rfl rfl).1
      (Or.inl (by decide))⟩

/-- Claim C4: content-addressing and single entry per key.  Two files with
byte-identical content derive the same record path; after a store for the
second file over a duplicate-free directory, the directory holds exactly
one record at that key — the one just written, overwriting any previous
record there — the directory stays duplicate-free, and a lookup on the
first file (whose modification time does not exceed the recorded one)
reads the record written for the second file. -/
theorem C4_content_addressing (md5hex : List Nat → String)
    (jsonSize : CacheData → Nat) (k : DocKind) (fs : FS)
    (dir dir' : CacheDir) (p1 p2 t2 now : String) (c : List Nat)
    (ts1 ts2 : ℚ)
    (h1 : fs p1 = some ⟨c, ts1⟩) (h2 : fs p2 = some ⟨c, ts2⟩)
    (hnd : (List.map Prod.fst dir).Nodup)
    (hstore : DocumentCache.store md5hex jsonSize k fs dir p2 t2 now
      = Except.ok dir') :
    DocumentCache._get_cache_file_path md5hex fs p1 k.fileType
        = DocumentCache._get_cache_file_path md5hex fs p2 k.fileType ∧
    List.filter
        (fun e => e.1 == DocumentCache.cacheKey k.fileType (md5hex c)) dir'
      = [(DocumentCache.cacheKey k.fileType (md5hex c),
          CacheFile.valid (DocumentCache.mkRecord p2 t2 now ts2 c.length)
            (jsonSize (DocumentCache.mkRecord p2 t2 now ts2 c.length)))] ∧
    (List.map Prod.fst dir').Nodup ∧
    (ts1 ≤ ts2 →
      (DocumentCache.lookup md5hex k fs dir' p1).2 = (some t2, true)) := by
  rw [DocumentCache.store_ok md5hex jsonSize k fs dir p2 t2 now ⟨c, ts2⟩ h2]
    at hstore
  injection hstore with hdir
  subst hdir
  refine ⟨?_, ?_, ?_, ?_⟩
  · simp [DocumentCache._get_cache_file_path, DocumentCache._get_file_hash,
      h1, h2]
  · exact filter_keyEq_setFile dir _ _ hnd
  · exact nodup_keys_setFile dir _ _ hnd
  · intro hle
    have hl := DocumentCache.lookup_hit md5hex k fs
      (setFile dir (DocumentCache.cacheKey k.fileType (md5hex c))
        (CacheFile.valid (DocumentCache.mkRecord p2 t2 now ts2 c.length)
          (jsonSize (DocumentCache.mkRecord p2 t2 now ts2 c.length))))
      p1 ⟨c, ts1⟩ (DocumentCache.mkRecord p2 t2 now ts2 c.length)
      (jsonSize (DocumentCache.mkRecord p2 t2 now ts2 c.length)) h1
      (lookupFile_setFile_self _ _ _)
      (DocumentCache.mkRecord_not_empty _ _ _ _ _)
      (by simpa [DocumentCache.mkRecord] using hle)
    rw [hl]
    simp [DocumentCache.mkRecord]

/-- Witness for C4: two paths with the same bytes; a store for the second
is read back by a lookup on the first. -/
theorem C4_content_addressing_witness :
    ((fun q => if q = "a.pdf" then some (⟨[1, 2], 3⟩ : SrcFile)
        else if q = "b.pdf" then some ⟨[1, 2], 9⟩ else none) "a.pdf"
      = some ⟨[1, 2], 3⟩) ∧
    (3 : ℚ) ≤ 9 ∧
    (DocumentCache.lookup (fun c => toString c.length) DocKind.resume
      (fun q => if q = "a.pdf" then some ⟨[1, 2], 3⟩
        else if q = "b.pdf" then some ⟨[1, 2], 9⟩ else none)
      [("resume_2.json",
        CacheFile.valid (DocumentCache.mkRecord "b.pdf" "tB" "T" 9 2) 4)]
      "a.pdf").2 = (some "tB", true) :=
  ⟨rfl, by decide,
    (C4_content_addressing (fun c => toString c.length) (fun _ => 4)
      DocKind.resume
      (fun q => if q = "a.pdf" then some ⟨[1, 2], 3⟩
        else if q = "b.pdf" then some ⟨[1, 2], 9⟩ else none)
      []
      [("resume_2.json",
        CacheFile.valid (DocumentCache.mkRecord "b.pdf" "tB" "T" 9 2) 4)]
      "a.pdf" "b.pdf" "tB" "T" [1, 2] 3 9 rfl rfl (by simp) rfl).2.2.2
      (by decide)⟩

/-- Claim C5: kind isolation.  A store under one kind changes no lookup
made under the other kind: the other kind's lookup result is the same as
before the store, and from an empty cache a store under `kind` followed by
a lookup under the other kind is a miss, for any path. -/
theorem C5_kind_isolation (md5hex : List Nat → String)
    (jsonSize : CacheData → Nat) (k k' : DocKind) (hkk : k ≠ k')
    (fs fs' : FS) (dir dir' : CacheDir) (p t now q : String)
    (hstore : DocumentCache.store md5hex jsonSize k fs dir p t now
      = Except.ok dir') :
    ((DocumentCache.lookup md5hex k' fs' dir' q).2
        = (DocumentCache.lookup md5hex k' fs' dir q).2) ∧
    (dir = [] →
      (DocumentCache.lookup md5hex k' fs' dir' q).2 = (none, false)) := by
  cases hf : fs p with
  | none =>
    rw [DocumentCache.store_unreadable md5hex jsonSize k fs dir p t now hf]
      at hstore
    exact absurd hstore (by simp)
  | some f =>
    rw [DocumentCache.store_ok md5hex jsonSize k fs dir p t now f hf]
      at hstore
    injection hstore with hdir
    subst hdir
    have hmain : (DocumentCache.lookup md5hex k' fs'
        (setFile dir (DocumentCache.cacheKey k.fileType (md5hex f.content))
          (CacheFile.valid
            (DocumentCache.mkRecord p t now f.mtime f.content.length)
            (jsonSize
              (DocumentCache.mkRecord p t now f.mtime f.content.length)))) q).2
        = (DocumentCache.lookup md5hex k' fs' dir q).2 :=
      lookup_snd_congr md5hex k' fs' _ dir q (fun g _ =>
        lookupFile_setFile_ne dir _ _ _
          (cacheKey_ne_of_kind_ne k' k (Ne.symm hkk) _ _))
    refine ⟨hmain, fun hdir => ?_⟩
    subst hdir
    rw [hmain, lookup_empty_dir]

/-- Witness for C5: a resume store from an empty cache, then a job lookup
on the same path, is a miss. -/
theorem C5_kind_isolation_witness :
    (DocKind.resume ≠ DocKind.job) ∧
    (DocumentCache.lookup (fun c => toString c.length) DocKind.job
      (fun q => if q = "f.pdf" then some (⟨[1], 5⟩ : SrcFile) else none)
      [("resume_1.json",
        CacheFile.valid (DocumentCache.mkRecord "f.pdf" "txt" "T" 5 1) 3)]
      "f.pdf").2 = (none, false) :=
  ⟨by decide,
    (C5_kind_isolation (fun c => toString c.length) (fun _ => 3)
      DocKind.resume DocKind.job (by decide)
      (fun q => if q = "f.pdf" then some ⟨[1], 5⟩ else none)
      (fun q => if q = "f.pdf" then some ⟨[1], 5⟩ else none)
      []
      [("resume_1.json",
        CacheFile.valid (DocumentCache.mkRecord "f.pdf" "txt" "T" 5 1) 3)]
      "f.pdf" "txt" "T" "f.pdf" rfl).2 rfl⟩

/-- Claim C6: clear-all completeness.  After `clear_cache`, no `.json`
record remains in the directory, `get_cache_info` lists no entries and
reports total size zero, and every lookup — any kind, any file system,
any path — misses. -/
theorem C6_clear_all_completeness (md5hex : List Nat → String)
    (cname : String) (dir : CacheDir) :
    (∀ e ∈ DocumentCache.clear_cache dir, endswith e.1 ".json" = false) ∧
    (DocumentCache.get_cache_info cname
      (DocumentCache.clear_cache dir)).2.cached_files = [] ∧
    (DocumentCache.get_cache_info cname
      (DocumentCache.clear_cache dir)).2.total_size = 0 ∧
    (∀ (k : DocKind) (fs : FS) (p : String),
      (DocumentCache.lookup md5hex k fs
        (DocumentCache.clear_cache dir) p).2 = (none, false)) := by
  have hcf : List.filterMap (fun e : String × CacheFile =>
      if endswith e.1 ".json" = true then
        match e.2 with
        | CacheFile.valid d sz =>
            some { file := e.1
                   original_file := d.file_path.getD "Unknown"
                   cached_at := d.cached_at.getD "Unknown"
                   size := sz }
        | CacheFile.corrupted _ =>
            (none : Option DocumentCache.CacheInfoEntry)
      else none)
      (List.filter (fun e => !endswith e.1 ".json") dir) = [] :=
    filterMap_filter_not (fun e => endswith e.1 ".json") _
      (fun e he => by simp [he]) dir
  refine ⟨?_, ?_, ?_, ?_⟩
  · intro e he
    have := List.of_mem_filter he
    simpa using this
  · simpa [DocumentCache.get_cache_info, DocumentCache.clear_cache] using hcf
  · simp only [DocumentCache.get_cache_info, DocumentCache.clear_cache]
    rw [hcf]
    rfl
  · intro k fs p
    cases hq : fs p with
    | none => rw [DocumentCache.lookup_miss_unreadable md5hex k fs _ p hq]
    | some g =>
      rw [DocumentCache.lookup_miss_absent md5hex k fs _ p g hq
        (by simp [DocumentCache._load_cache,
          lookupFile_clear_cache dir _ (endswith_cacheKey _ _)])]

/-- Witness for C6 on a concrete directory with a record and a stray
non-record file. -/
theorem C6_clear_all_completeness_witness :
    (DocumentCache.get_cache_info "cache"
      (DocumentCache.clear_cache
        [("resume_1.json",
          CacheFile.valid (DocumentCache.mkRecord "f.pdf" "x" "T" 5 1) 3),
         ("keep.txt", CacheFile.corrupted 2)])).2.cached_files = [] ∧
    (DocumentCache.lookup (fun c => toString c.length) DocKind.resume
      (fun q => if q = "f.pdf" then some (⟨[1], 5⟩ : SrcFile) else none)
      (DocumentCache.clear_cache
        [("resume_1.json",
          CacheFile.valid (DocumentCache.mkRecord "f.pdf" "x" "T" 5 1) 3),
         ("keep.txt", CacheFile.corrupted 2)])
      "f.pdf").2 = (none, false) :=
  ⟨(C6_clear_all_completeness (fun c => toString c.length) "cache"
      [("resume_1.json",
        CacheFile.valid (DocumentCache.mkRecord "f.pdf" "x" "T" 5 1) 3),
       ("keep.txt", CacheFile.corrupted 2)]).2.1,
   (C6_clear_all_completeness (fun c => toString c.length) "cache"
      [("resume_1.json",
        CacheFile.valid (DocumentCache.mkRecord "f.pdf" "x" "T" 5 1) 3),
       ("keep.txt", CacheFile.corrupted 2)]).2.2.2 DocKind.resume
      (fun q => if q = "f.pdf" then some ⟨[1], 5⟩ else none) "f.pdf"⟩

/-- Claim C7: corrupted-record resilience.  With a malformed record file
present in the directory, `get_cache_info` does not modify the directory,
its output (listing and total size) is exactly what it would be without
the malformed record — so the malformed record is excluded without being
deleted — every parseable `.json` record is still listed, and a lookup
that resolves to a corrupted record returns a miss rather than raising. -/
theorem C7_corrupted_record_resilience (md5hex : List Nat → String)
    (cname : String) (dir1 dir2 : CacheDir) (n : String) (sz : Nat) :
    (DocumentCache.get_cache_info cname
        (dir1 ++ (n, CacheFile.corrupted sz) :: dir2)).1
      = dir1 ++ (n, CacheFile.corrupted sz) :: dir2 ∧
    (DocumentCache.get_cache_info cname
        (dir1 ++ (n, CacheFile.corrupted sz) :: dir2)).2
      = (DocumentCache.get_cache_info cname (dir1 ++ dir2)).2 ∧
    (∀ (m : String) (d : CacheData) (s : Nat),
      (m, CacheFile.valid d s) ∈ dir1 ++ (n, CacheFile.corrupted sz) :: dir2 →
      endswith m ".json" = true →
      ({ file := m, original_file := d.file_path.getD "Unknown",
         cached_at := d.cached_at.getD "Unknown", size := s }
          : DocumentCache.CacheInfoEntry)
        ∈ (DocumentCache.get_cache_info cname
            (dir1 ++ (n, CacheFile.corrupted sz) :: dir2)).2.cached_files) ∧
    (∀ (dir : CacheDir) (k : DocKind) (fs : FS) (p : String) (f : SrcFile)
        (s : Nat),
      fs p = some f →
      lookupFile dir (DocumentCache.cacheKey k.fileType (md5hex f.content))
        = some (CacheFile.corrupted s) →
      (DocumentCache.lookup md5hex k fs dir p).2 = (none, false)) := by
  have hnone : ∀ s' : Nat, (fun e : String × CacheFile =>
      if endswith e.1 ".json" = true then
        match e.2 with
        | CacheFile.valid d szz =>
            some { file := e.1
                   original_file := d.file_path.getD "Unknown"
                   cached_at := d.cached_at.getD "Unknown"
                   size := szz }
        | CacheFile.corrupted _ =>
            (none : Option DocumentCache.CacheInfoEntry)
      else none) (n, CacheFile.corrupted s') = none := by
    intro s'
    by_cases hn : endswith n ".json" = true <;> simp [hn]
  refine ⟨rfl, ?_, ?_, ?_⟩
  · simp only [DocumentCache.get_cache_info, List.filterMap_append,
      List.filterMap_cons, hnone sz]
  · intro m d s hm hend
    simp only [DocumentCache.get_cache_info, List.mem_filterMap]
    exact ⟨(m, CacheFile.valid d s), hm, by simp [hend]⟩
  · intro dir k fs p f s hf hrec
    rw [DocumentCache.lookup_miss_absent md5hex k fs dir p f hf
      (by simp [DocumentCache._load_cache, hrec])]

/-- Witness for C7: a directory holding one good record and one corrupted
record; info output keeps the good one and ignores the bad one. -/
theorem C7_corrupted_record_resilience_witness :
    (("a_1.json",
      CacheFile.valid (DocumentCache.mkRecord "f.pdf" "x" "T" 5 1) 3)
        ∈ ([("a_1.json",
            CacheFile.valid (DocumentCache.mkRecord "f.pdf" "x" "T" 5 1) 3)]
          ++ ("bad.json", CacheFile.corrupted 9) :: [])) ∧
    (DocumentCache.get_cache_info "cache"
        ([("a_1.json",
          CacheFile.valid (DocumentCache.mkRecord "f.pdf" "x" "T" 5 1) 3)]
        ++ ("bad.json", CacheFile.corrupted 9) :: [])).2
      = (DocumentCache.get_cache_info "cache"
          ([("a_1.json",
            CacheFile.valid (DocumentCache.mkRecord "f.pdf" "x" "T" 5 1) 3)]
          ++ [])).2 :=
  ⟨by simp,
    (C7_corrupted_record_resilience (fun c => toString c.length) "cache"
      [("a_1.json",
        CacheFile.valid (DocumentCache.mkRecord "f.pdf" "x" "T" 5 1) 3)]
      [] "bad.json" 9).2.1⟩
